import Mathlib

/-!
Verification of the PRR (Product Readiness Review) scoring and comparison
engine, shallowly embedded from the Go sources:

* `models/models.go` — the data model (`Question`, `Answer`, `PRRSubmission`,
  `SectionScore`, `SectionScoreComparison`, `AnswerChangeDetail`,
  `PRRComparisonReport`).
* `api/handlers/prr_submission_handlers.go`:
  - the per-section score calculation inside `submitPRRHandler`
    (lines 156–187), embedded as `calculateSectionScores`;
  - `generateComparisonReport` (lines 405–485);
  - the duplicated report construction inside `comparePRRSubmissionsHandler`
    (lines 549–657), embedded as `comparePRRHandlerReport`.

Go maps (`map[string]V`) are embedded as association lists
(`List (String × V)`) with Go's assignment semantics: `insertMap` replaces
the binding when the key is present and appends a fresh binding otherwise,
so key sets stay duplicate-free.  Go slices are embedded as
`GoSlice α := Option (List α)`, keeping the distinction between a `nil`
slice (`none`, which `encoding/json` serializes as `null`) and a non-nil
empty slice (`some []`, serialized as `[]`); Go's `append` on a `nil`
slice yields a non-nil slice, which `goAppend` mirrors.
`strings.ToLower` is embedded as `toLowerGo` (per-character lowercasing
of the string's characters); on the ASCII response strings relevant here
the two agree.  `time.Time` values are only ever
compared with `Before`, so timestamps are embedded as `Nat`.
-/

set_option autoImplicit false

namespace PRR

/-- `models.Question` (models/models.go). -/
structure Question where
  id : String
  sectionID : String
  text : String
  blurb : String
  supportingLink : String
  isEssential : Bool
  order : Int
deriving DecidableEq

/-- `models.Answer` (models/models.go). -/
structure Answer where
  questionID : String
  response : String
deriving DecidableEq

/-- `models.SectionScore` (models/models.go).  Counts only ever start from
Go's zero value and are incremented, so `Nat` is faithful. -/
structure SectionScore where
  sectionID : String
  yesCount : Nat
  noCount : Nat
  naCount : Nat
deriving DecidableEq

/-- Go's zero value `models.SectionScore{}`: empty section id, all counts 0. -/
def zeroScore : SectionScore :=
  { sectionID := "", yesCount := 0, noCount := 0, naCount := 0 }

/-- A Go `map[string]V`, embedded as an association list whose keys are
kept duplicate-free by `insertMap`. -/
abbrev GoMap (V : Type) := List (String × V)

/-- Go map read `m[k]` (`value, ok` form): first binding of `k`. -/
def lookupMap {V : Type} : GoMap V → String → Option V
  | [], _ => none
  | (k', v) :: rest, k => if k' = k then some v else lookupMap rest k

/-- Go map write `m[k] = v`: replace the binding when present, append
a fresh binding otherwise. -/
def insertMap {V : Type} : GoMap V → String → V → GoMap V
  | [], k, v => [(k, v)]
  | (k', v') :: rest, k, v =>
    if k' = k then (k, v) :: rest else (k', v') :: insertMap rest k v

/-- The key set of an embedded Go map, in binding order. -/
def keysOf {V : Type} (m : GoMap V) : List String :=
  m.map Prod.fst

/-- `models.PRRSubmission` (models/models.go). -/
structure PRRSubmission where
  id : String
  serviceID : String
  userID : String
  timestamp : Nat
  answers : List Answer
  sectionScores : GoMap SectionScore
deriving DecidableEq

/-- The question catalog `questionsMap : map[string]models.Question`,
used read-only by scoring and comparison. -/
abbrev Catalog := String → Option Question

/-- `strings.ToLower`, embedded as per-character lowercasing.  (Lean's
`Char.toLower`, like Go's Unicode lowering, maps the ASCII letters
A–Z to a–z, which is all that matters for matching "yes"/"no"/"n/a".) -/
def toLowerGo (s : String) : String :=
  ⟨s.data.map Char.toLower⟩

/-- The `switch strings.ToLower(answer.Response)` body of the scoring loop
(prr_submission_handlers.go lines 175–185): increment the counter matching
the lowercased response; an unrecognized response increments nothing. -/
def bumpScore (score : SectionScore) (response : String) : SectionScore :=
  if toLowerGo response = "yes" then { score with yesCount := score.yesCount + 1 }
  else if toLowerGo response = "no" then { score with noCount := score.noCount + 1 }
  else if toLowerGo response = "n/a" then { score with naCount := score.naCount + 1 }
  else score

/-- One iteration of the scoring loop in `submitPRRHandler`
(prr_submission_handlers.go lines 157–187): look the answer's question up
in the catalog (skip when absent), skip when its section id is empty,
otherwise bump the section's running tally, creating it with the
section's id and zero counts on first use. -/
def scoreStep (questionsMap : Catalog) (scores : GoMap SectionScore)
    (answer : Answer) : GoMap SectionScore :=
  match questionsMap answer.questionID with
  | none => scores
  | some question =>
    if question.sectionID = "" then scores
    else
      let score :=
        match lookupMap scores question.sectionID with
        | some sc => sc
        | none =>
          { sectionID := question.sectionID, yesCount := 0, noCount := 0, naCount := 0 }
      insertMap scores question.sectionID (bumpScore score answer.response)

/-- The whole scoring computation of `submitPRRHandler`
(prr_submission_handlers.go lines 153–187): fold the scoring loop over the
submission's answers, starting from the freshly made empty score map. -/
def calculateSectionScores (answers : List Answer) (questionsMap : Catalog) :
    GoMap SectionScore :=
  answers.foldl (scoreStep questionsMap) []

/-- The section an answer is tallied into: the catalog question's section id
when the question exists and its section id is non-empty. -/
def answerSection (questionsMap : Catalog) (answer : Answer) : Option String :=
  match questionsMap answer.questionID with
  | none => none
  | some question =>
    if question.sectionID = "" then none else some question.sectionID

/-- How many answers of the list are tallied into section `s` with
lowercased response `r`. -/
def respCount (questionsMap : Catalog) (answers : List Answer)
    (s r : String) : Nat :=
  answers.countP
    (fun a => answerSection questionsMap a == some s && toLowerGo a.response == r)

/-- Whether some answer of the list is tallied into section `s`
(whatever its response). -/
def touchesSection (questionsMap : Catalog) (answers : List Answer)
    (s : String) : Bool :=
  answers.any (fun a => answerSection questionsMap a == some s)

/-- An answer that lands in a known section and carries one of the three
canonical responses (case-insensitively). -/
def recognizedAnswer (questionsMap : Catalog) (a : Answer) : Bool :=
  (answerSection questionsMap a).isSome &&
    (toLowerGo a.response == "yes" || toLowerGo a.response == "no" ||
      toLowerGo a.response == "n/a")

/-- Yes + No + N/A of one tally. -/
def sectionTotal (sc : SectionScore) : Nat :=
  sc.yesCount + sc.noCount + sc.naCount

/-- Sum of all tallies of a score map. -/
def totalCount (m : GoMap SectionScore) : Nat :=
  (m.map (fun p => sectionTotal p.2)).sum

/-- `models.SectionScoreComparison` (models/models.go). -/
structure SectionScoreComparison where
  oldScores : SectionScore
  newScores : SectionScore
deriving DecidableEq

/-- `models.AnswerChangeDetail` (models/models.go). -/
structure AnswerChangeDetail where
  questionID : String
  questionText : String
  oldAnswer : String
  newAnswer : String
deriving DecidableEq

/-- A Go slice, keeping the `nil` (`none`) versus non-nil-empty
(`some []`) distinction that `encoding/json` surfaces as `null` vs `[]`. -/
abbrev GoSlice (α : Type) := Option (List α)

/-- Go `append(s, x)`: appending to a `nil` slice yields a non-nil slice. -/
def goAppend {α : Type} (s : GoSlice α) (x : α) : GoSlice α :=
  some (s.getD [] ++ [x])

/-- The element list a Go slice denotes (`nil` and the empty slice both
denote no elements). -/
def sliceList {α : Type} (s : GoSlice α) : List α :=
  s.getD []

/-- `models.PRRComparisonReport` (models/models.go). -/
structure PRRComparisonReport where
  serviceID : String
  prrSubmissionIDOld : String
  prrSubmissionIDNew : String
  sectionComparison : GoMap SectionScoreComparison
  answerChanges : GoSlice AnswerChangeDetail
  newlyAnsweredQuestions : GoSlice AnswerChangeDetail
  noLongerAnsweredQuestions : GoSlice AnswerChangeDetail
deriving DecidableEq

/-- The `questionText := ""; if q, ok := allQuestions[qID]; ok { ... }`
idiom of both comparison loops. -/
def questionTextOf (allQuestions : Catalog) (qid : String) : String :=
  match allQuestions qid with
  | some q => q.text
  | none => ""

/-- `for _, ans := range answers { m[ans.QuestionID] = ans.Response }`
(prr_submission_handlers.go lines 436–443 and 618–621): last write wins
on duplicate question ids. -/
def buildAnswersMap (answers : List Answer) : GoMap String :=
  answers.foldl (fun m ans => insertMap m ans.questionID ans.response) []

/-- One iteration of the section-comparison loop
(prr_submission_handlers.go lines 426–433 and 608–615): `oldScore, _ :=
oldPRR.SectionScores[secID]` yields the zero-value `SectionScore` when the
key is absent. -/
def sectionLoopStep (oldPRR newPRR : PRRSubmission)
    (report : PRRComparisonReport) (secID : String) : PRRComparisonReport :=
  { report with
    sectionComparison :=
      insertMap report.sectionComparison secID
        { oldScores := (lookupMap oldPRR.sectionScores secID).getD zeroScore
          newScores := (lookupMap newPRR.sectionScores secID).getD zeroScore } }

/-- One iteration of the `for qID, oldResp := range oldAnswersMap` loop
(prr_submission_handlers.go lines 445–468 and 623–644). -/
def oldAnswersLoopStep (allQuestions : Catalog) (newAnswersMap : GoMap String)
    (report : PRRComparisonReport) (entry : String × String) :
    PRRComparisonReport :=
  let questionText := questionTextOf allQuestions entry.1
  match lookupMap newAnswersMap entry.1 with
  | some newResp =>
    if entry.2 ≠ newResp then
      { report with
        answerChanges :=
          goAppend report.answerChanges
            { questionID := entry.1, questionText := questionText,
              oldAnswer := entry.2, newAnswer := newResp } }
    else report
  | none =>
    { report with
      noLongerAnsweredQuestions :=
        goAppend report.noLongerAnsweredQuestions
          { questionID := entry.1, questionText := questionText,
            oldAnswer := entry.2, newAnswer := "" } }

/-- One iteration of the `for qID, newResp := range newAnswersMap` loop
(prr_submission_handlers.go lines 470–483 and 646–657). -/
def newAnswersLoopStep (allQuestions : Catalog) (oldAnswersMap : GoMap String)
    (report : PRRComparisonReport) (entry : String × String) :
    PRRComparisonReport :=
  let questionText := questionTextOf allQuestions entry.1
  match lookupMap oldAnswersMap entry.1 with
  | some _ => report
  | none =>
    { report with
      newlyAnsweredQuestions :=
        goAppend report.newlyAnsweredQuestions
          { questionID := entry.1, questionText := questionText,
            oldAnswer := "", newAnswer := entry.2 } }

/-- The comparison body shared verbatim by `generateComparisonReport`
(lines 417–484) and `comparePRRSubmissionsHandler` (lines 603–657):
section comparison over the union of section ids (the Go
`allSectionIDs map[string]bool` set is embedded as deduplication of the
concatenated key lists), then the two answer-comparison loops. -/
def fillComparisonReport (report : PRRComparisonReport)
    (oldPRR newPRR : PRRSubmission) (allQuestions : Catalog) :
    PRRComparisonReport :=
  let allSectionIDs :=
    (keysOf oldPRR.sectionScores ++ keysOf newPRR.sectionScores).dedup
  let report := allSectionIDs.foldl (sectionLoopStep oldPRR newPRR) report
  let oldAnswersMap := buildAnswersMap oldPRR.answers
  let newAnswersMap := buildAnswersMap newPRR.answers
  let report :=
    oldAnswersMap.foldl (oldAnswersLoopStep allQuestions newAnswersMap) report
  newAnswersMap.foldl (newAnswersLoopStep allQuestions oldAnswersMap) report

/-- `generateComparisonReport` (prr_submission_handlers.go lines 405–485):
the report literal explicitly initializes the three change collections to
non-nil empty slices ("Initialize slices to ensure they are not nil if
empty"). -/
def generateComparisonReport (oldPRR newPRR : PRRSubmission)
    (allQuestions : Catalog) (serviceID : String) : PRRComparisonReport :=
  fillComparisonReport
    { serviceID := serviceID
      prrSubmissionIDOld := oldPRR.id
      prrSubmissionIDNew := newPRR.id
      sectionComparison := []
      answerChanges := some []
      newlyAnsweredQuestions := some []
      noLongerAnsweredQuestions := some [] }
    oldPRR newPRR allQuestions

/-- The report construction inside `comparePRRSubmissionsHandler`
(prr_submission_handlers.go lines 549–657): the two fetched submissions are
ordered by `sub1.Timestamp.Before(sub2.Timestamp)`, and the report literal
(lines 596–601) sets only the ids and the section map, leaving the three
change collections at their zero value, the `nil` slice. -/
def comparePRRHandlerReport (sub1 sub2 : PRRSubmission)
    (allQuestions : Catalog) (serviceID : String) : PRRComparisonReport :=
  let ordered :=
    if sub1.timestamp < sub2.timestamp then (sub1, sub2) else (sub2, sub1)
  fillComparisonReport
    { serviceID := serviceID
      prrSubmissionIDOld := ordered.1.id
      prrSubmissionIDNew := ordered.2.id
      sectionComparison := []
      answerChanges := none
      newlyAnsweredQuestions := none
      noLongerAnsweredQuestions := none }
    ordered.1 ordered.2 allQuestions

/-- What one old-answers-map entry contributes to `AnswerChanges`. -/
def changeF (allQuestions : Catalog) (newAnswersMap : GoMap String)
    (entry : String × String) : Option AnswerChangeDetail :=
  match lookupMap newAnswersMap entry.1 with
  | some newResp =>
    if entry.2 ≠ newResp then
      some { questionID := entry.1, questionText := questionTextOf allQuestions entry.1,
             oldAnswer := entry.2, newAnswer := newResp }
    else none
  | none => none

/-- What one old-answers-map entry contributes to `NoLongerAnsweredQuestions`. -/
def noLongerF (allQuestions : Catalog) (newAnswersMap : GoMap String)
    (entry : String × String) : Option AnswerChangeDetail :=
  match lookupMap newAnswersMap entry.1 with
  | some _ => none
  | none =>
    some { questionID := entry.1, questionText := questionTextOf allQuestions entry.1,
           oldAnswer := entry.2, newAnswer := "" }

/-- What one new-answers-map entry contributes to `NewlyAnsweredQuestions`. -/
def newlyF (allQuestions : Catalog) (oldAnswersMap : GoMap String)
    (entry : String × String) : Option AnswerChangeDetail :=
  match lookupMap oldAnswersMap entry.1 with
  | some _ => none
  | none =>
    some { questionID := entry.1, questionText := questionTextOf allQuestions entry.1,
           oldAnswer := "", newAnswer := entry.2 }

/-- Swap the old and new answer of a change entry. -/
def swapDetail (d : AnswerChangeDetail) : AnswerChangeDetail :=
  { d with oldAnswer := d.newAnswer, newAnswer := d.oldAnswer }

/-- How many entries of a change list carry the given question id. -/
def countQ (l : List AnswerChangeDetail) (qid : String) : Nat :=
  l.countP (fun d => d.questionID == qid)

/-- Duplicate-free key set, the invariant every embedded Go map enjoys. -/
def keysNodup {V : Type} (m : GoMap V) : Prop :=
  (keysOf m).Nodup

/-- A concrete catalog question for witness inputs: `q1` in section `s1`. -/
def exQ1 : Question :=
  { id := "q1", sectionID := "s1", text := "Is it monitored?", blurb := "",
    supportingLink := "", isEssential := true, order := 1 }

/-- A concrete catalog question for witness inputs: `q2` in section `s2`. -/
def exQ2 : Question :=
  { id := "q2", sectionID := "s2", text := "Is it backed up?", blurb := "",
    supportingLink := "", isEssential := false, order := 2 }

/-- A concrete catalog question with an empty section id. -/
def exQ3 : Question :=
  { id := "q3", sectionID := "", text := "Orphan question", blurb := "",
    supportingLink := "", isEssential := false, order := 3 }

/-- A concrete two-section catalog for witness inputs. -/
def exCatalog : Catalog := fun qid =>
  if qid = "q1" then some exQ1
  else if qid = "q2" then some exQ2
  else if qid = "q3" then some exQ3
  else none

/-- A concrete submission answering `q1` with `Yes`. -/
def exSubA : PRRSubmission :=
  { id := "sub-a", serviceID := "svc", userID := "u", timestamp := 1,
    answers := [{ questionID := "q1", response := "Yes" }],
    sectionScores := calculateSectionScores
      [{ questionID := "q1", response := "Yes" }] exCatalog }

/-- A concrete submission answering `q1` with `No` and `q2` with `Yes`. -/
def exSubB : PRRSubmission :=
  { id := "sub-b", serviceID := "svc", userID := "u", timestamp := 2,
    answers := [{ questionID := "q1", response := "No" },
                { questionID := "q2", response := "Yes" }],
    sectionScores := calculateSectionScores
      [{ questionID := "q1", response := "No" },
       { questionID := "q2", response := "Yes" }] exCatalog }

/-- A concrete submission with the same answers as `exSubA` but a later
timestamp: comparing it with `exSubA` produces no change entries. -/
def exSubA2 : PRRSubmission :=
  { id := "sub-a2", serviceID := "svc", userID := "u", timestamp := 3,
    answers := [{ questionID := "q1", response := "Yes" }],
    sectionScores := calculateSectionScores
      [{ questionID := "q1", response := "Yes" }] exCatalog }

/-! ### Association-list lemmas for the embedded Go maps -/

theorem lookupMap_insertMap_self {V : Type} (m : GoMap V) (k : String) (v : V) :
    lookupMap (insertMap m k v) k = some v := by
  induction m with
  | nil => simp [insertMap, lookupMap]
  | cons p rest ih =>
    by_cases h : p.1 = k
    · simp [insertMap, h, lookupMap]
    · simp [insertMap, h, lookupMap, ih]

theorem lookupMap_insertMap_ne {V : Type} (m : GoMap V) {k k' : String} (v : V)
    (h : k' ≠ k) : lookupMap (insertMap m k v) k' = lookupMap m k' := by
  have h' : ¬(k = k') := fun hh => h hh.symm
  induction m with
  | nil => simp [insertMap, lookupMap, h']
  | cons p rest ih =>
    obtain ⟨pk, pv⟩ := p
    by_cases hp : pk = k
    · subst hp
      simp [insertMap, lookupMap, h']
    · by_cases hp' : pk = k'
      · subst hp'
        simp [insertMap, hp, lookupMap]
      · simp [insertMap, hp, lookupMap, hp', ih]

theorem mem_keysOf_insertMap {V : Type} (m : GoMap V) (k s : String) (v : V) :
    s ∈ keysOf (insertMap m k v) ↔ s ∈ keysOf m ∨ s = k := by
  induction m with
  | nil => simp [insertMap, keysOf]
  | cons p rest ih =>
    obtain ⟨pk, pv⟩ := p
    by_cases hp : pk = k
    · subst hp
      have e : insertMap ((pk, pv) :: rest) pk v = (pk, v) :: rest := by
        simp [insertMap]
      rw [e]
      simp only [keysOf, List.map_cons, List.mem_cons]
      tauto
    · have e : insertMap ((pk, pv) :: rest) k v = (pk, pv) :: insertMap rest k v := by
        simp [insertMap, hp]
      rw [e]
      simp only [keysOf, List.map_cons, List.mem_cons] at ih ⊢
      rw [ih]
      tauto

theorem keysNodup_insertMap {V : Type} (m : GoMap V) (k : String) (v : V)
    (h : keysNodup m) : keysNodup (insertMap m k v) := by
  induction m with
  | nil => simp [insertMap, keysNodup, keysOf]
  | cons p rest ih =>
    obtain ⟨pk, pv⟩ := p
    rw [keysNodup, keysOf] at h
    simp only [List.map_cons, List.nodup_cons] at h
    by_cases hp : pk = k
    · subst hp
      have e : insertMap ((pk, pv) :: rest) pk v = (pk, v) :: rest := by
        simp [insertMap]
      rw [keysNodup, keysOf, e]
      simp only [List.map_cons, List.nodup_cons]
      exact ⟨h.1, h.2⟩
    · have e : insertMap ((pk, pv) :: rest) k v = (pk, pv) :: insertMap rest k v := by
        simp [insertMap, hp]
      rw [keysNodup, keysOf, e]
      simp only [List.map_cons, List.nodup_cons]
      refine ⟨?_, ih h.2⟩
      intro hmem
      rcases (mem_keysOf_insertMap rest k pk v).mp hmem with hm | hm
      · exact h.1 hm
      · exact hp hm

theorem lookupMap_eq_none_iff {V : Type} (m : GoMap V) (k : String) :
    lookupMap m k = none ↔ k ∉ keysOf m := by
  induction m with
  | nil => simp [lookupMap, keysOf]
  | cons p rest ih =>
    obtain ⟨pk, pv⟩ := p
    by_cases hp : pk = k
    · subst hp
      simp [lookupMap, keysOf]
    · have h' : ¬(k = pk) := fun hh => hp hh.symm
      simp [lookupMap, hp, keysOf, List.mem_cons, ih, h']

theorem mem_iff_lookupMap {V : Type} (m : GoMap V) (k : String) (v : V)
    (h : keysNodup m) : (k, v) ∈ m ↔ lookupMap m k = some v := by
  induction m with
  | nil => simp [lookupMap]
  | cons p rest ih =>
    obtain ⟨pk, pv⟩ := p
    rw [keysNodup, keysOf] at h
    simp only [List.map_cons, List.nodup_cons] at h
    by_cases hp : pk = k
    · subst hp
      have e : lookupMap ((pk, pv) :: rest) pk = some pv := by simp [lookupMap]
      rw [e]
      constructor
      · intro hm
        rcases List.mem_cons.mp hm with heq | hmem
        · simp only [Prod.mk.injEq, true_and] at heq
          rw [heq]
        · exact absurd (List.mem_map_of_mem Prod.fst hmem) h.1
      · intro hv
        simp only [Option.some.injEq] at hv
        exact List.mem_cons.mpr (Or.inl (by rw [hv]))
    · simp only [List.mem_cons, lookupMap, if_neg hp]
      rw [ih h.2]
      constructor
      · rintro (heq | hv)
        · exfalso
          simp only [Prod.mk.injEq] at heq
          exact hp heq.1.symm
        · exact hv
      · exact Or.inr

/-! ### Lemmas about one scoring step -/

theorem bumpScore_sectionID (sc : SectionScore) (r : String) :
    (bumpScore sc r).sectionID = sc.sectionID := by
  unfold bumpScore; split_ifs <;> rfl

theorem bumpScore_yesCount (sc : SectionScore) (r : String) :
    (bumpScore sc r).yesCount =
      sc.yesCount + (if toLowerGo r = "yes" then 1 else 0) := by
  unfold bumpScore; split_ifs <;> simp_all

theorem bumpScore_noCount (sc : SectionScore) (r : String) :
    (bumpScore sc r).noCount =
      sc.noCount + (if toLowerGo r = "no" then 1 else 0) := by
  unfold bumpScore; split_ifs <;> simp_all

theorem bumpScore_naCount (sc : SectionScore) (r : String) :
    (bumpScore sc r).naCount =
      sc.naCount + (if toLowerGo r = "n/a" then 1 else 0) := by
  unfold bumpScore; split_ifs <;> simp_all

theorem sectionTotal_bumpScore (sc : SectionScore) (r : String) :
    sectionTotal (bumpScore sc r) =
      sectionTotal sc +
        (if toLowerGo r = "yes" ∨ toLowerGo r = "no" ∨ toLowerGo r = "n/a"
          then 1 else 0) := by
  unfold bumpScore sectionTotal
  split_ifs with h1 h2 h3 h4 h4 h4 h4 <;> simp_all <;> omega

theorem scoreStep_eq (questionsMap : Catalog) (m : GoMap SectionScore)
    (a : Answer) :
    scoreStep questionsMap m a =
      match answerSection questionsMap a with
      | none => m
      | some s =>
        insertMap m s
          (bumpScore
            ((lookupMap m s).getD
              { sectionID := s, yesCount := 0, noCount := 0, naCount := 0 })
            a.response) := by
  unfold scoreStep answerSection
  cases questionsMap a.questionID with
  | none => rfl
  | some q =>
    by_cases hs : q.sectionID = ""
    · simp only [if_pos hs]
    · simp only [if_neg hs]
      cases hl : lookupMap m q.sectionID <;> simp [hl]

theorem scoreStep_skip {questionsMap : Catalog} {a : Answer}
    (h : answerSection questionsMap a = none) (m : GoMap SectionScore) :
    scoreStep questionsMap m a = m := by
  rw [scoreStep_eq, h]

theorem scoreStep_hit {questionsMap : Catalog} {a : Answer} {s : String}
    (h : answerSection questionsMap a = some s) (m : GoMap SectionScore) :
    scoreStep questionsMap m a =
      insertMap m s
        (bumpScore
          ((lookupMap m s).getD
            { sectionID := s, yesCount := 0, noCount := 0, naCount := 0 })
          a.response) := by
  rw [scoreStep_eq, h]

/-! ### Characterizing the scoring fold -/

theorem respCount_cons (questionsMap : Catalog) (a : Answer)
    (answers : List Answer) (s r : String) :
    respCount questionsMap (a :: answers) s r =
      respCount questionsMap answers s r +
        (if answerSection questionsMap a = some s ∧ toLowerGo a.response = r
          then 1 else 0) := by
  simp only [respCount, List.countP_cons, Bool.and_eq_true, beq_iff_eq,
    decide_eq_true_eq]

theorem touchesSection_cons (questionsMap : Catalog) (a : Answer)
    (answers : List Answer) (s : String) :
    touchesSection questionsMap (a :: answers) s =
      ((answerSection questionsMap a == some s) ||
        touchesSection questionsMap answers s) := by
  simp only [touchesSection, List.any_cons]

theorem respCount_eq_zero_of_not_touches {questionsMap : Catalog}
    {answers : List Answer} {s : String}
    (h : touchesSection questionsMap answers s = false) (r : String) :
    respCount questionsMap answers s r = 0 := by
  rw [respCount, List.countP_eq_zero]
  intro a ha
  have h' := (List.any_eq_false.mp h) a ha
  simp only [Bool.and_eq_true, not_and]
  intro hmem
  exact absurd hmem h'

theorem lookup_scoreFold_some (questionsMap : Catalog)
    (answers : List Answer) :
    ∀ (m : GoMap SectionScore) (s : String) (v : SectionScore),
      lookupMap m s = some v →
      lookupMap (answers.foldl (scoreStep questionsMap) m) s =
        some
          { sectionID := v.sectionID
            yesCount := v.yesCount + respCount questionsMap answers s "yes"
            noCount := v.noCount + respCount questionsMap answers s "no"
            naCount := v.naCount + respCount questionsMap answers s "n/a" } := by
  induction answers with
  | nil =>
    intro m s v h
    simp [respCount, h]
  | cons a rest ih =>
    intro m s v h
    rw [List.foldl_cons]
    cases hA : answerSection questionsMap a with
    | none =>
      rw [scoreStep_skip hA, ih m s v h]
      have hne : ¬(answerSection questionsMap a = some s ∧
          toLowerGo a.response = "yes") := by simp [hA]
      simp [respCount_cons, hA]
    | some s' =>
      by_cases hs : s' = s
      · subst hs
        rw [scoreStep_hit hA, h]
        have hl : lookupMap
            (insertMap m s' (bumpScore ((some v).getD
              { sectionID := s', yesCount := 0, noCount := 0, naCount := 0 })
              a.response)) s' =
            some (bumpScore v a.response) := by
          simp only [Option.getD_some]
          exact lookupMap_insertMap_self m s' (bumpScore v a.response)
        rw [ih _ s' (bumpScore v a.response) hl]
        simp only [bumpScore_sectionID, bumpScore_yesCount, bumpScore_noCount,
          bumpScore_naCount, respCount_cons, hA, Option.some.injEq,
          SectionScore.mk.injEq, eq_self_iff_true, true_and]
        repeat' apply And.intro
        all_goals first
        | rfl
        | (split_ifs <;> omega)
      · rw [scoreStep_hit hA]
        have hl : lookupMap
            (insertMap m s' (bumpScore ((lookupMap m s').getD
              { sectionID := s', yesCount := 0, noCount := 0, naCount := 0 })
              a.response)) s = some v := by
          rw [lookupMap_insertMap_ne _ _ (fun hh => hs hh.symm), h]
        rw [ih _ s v hl]
        have hne : ¬(answerSection questionsMap a = some s ∧
            toLowerGo a.response = "yes") := by
          rintro ⟨hh, -⟩
          rw [hA] at hh
          exact hs (Option.some.injEq _ _ ▸ hh)
        simp [respCount_cons, hA, hs]

theorem lookup_scoreFold_none (questionsMap : Catalog)
    (answers : List Answer) :
    ∀ (m : GoMap SectionScore) (s : String),
      lookupMap m s = none →
      lookupMap (answers.foldl (scoreStep questionsMap) m) s =
        if touchesSection questionsMap answers s then
          some
            { sectionID := s
              yesCount := respCount questionsMap answers s "yes"
              noCount := respCount questionsMap answers s "no"
              naCount := respCount questionsMap answers s "n/a" }
        else none := by
  induction answers with
  | nil =>
    intro m s h
    simp [touchesSection, h]
  | cons a rest ih =>
    intro m s h
    rw [List.foldl_cons]
    cases hA : answerSection questionsMap a with
    | none =>
      rw [scoreStep_skip hA, ih m s h]
      simp [touchesSection_cons, respCount_cons, hA]
    | some s' =>
      by_cases hs : s' = s
      · subst hs
        rw [scoreStep_hit hA, h]
        have hl : lookupMap
            (insertMap m s' (bumpScore
              { sectionID := s', yesCount := 0, noCount := 0, naCount := 0 }
              a.response)) s' =
            some (bumpScore
              { sectionID := s', yesCount := 0, noCount := 0, naCount := 0 }
              a.response) :=
          lookupMap_insertMap_self m s' _
        simp only [Option.getD_none]
        rw [lookup_scoreFold_some questionsMap rest _ s' _ hl]
        rw [touchesSection_cons, hA]
        simp only [bumpScore_sectionID, bumpScore_yesCount,
          bumpScore_noCount, bumpScore_naCount, respCount_cons, hA,
          Option.some.injEq, SectionScore.mk.injEq, eq_self_iff_true, true_and,
          beq_self_eq_true, Bool.true_or, if_true]
        repeat' apply And.intro
        all_goals first
        | rfl
        | (split_ifs <;> omega)
      · rw [scoreStep_hit hA]
        have hl : lookupMap
            (insertMap m s' (bumpScore ((lookupMap m s').getD
              { sectionID := s', yesCount := 0, noCount := 0, naCount := 0 })
              a.response)) s = none := by
          rw [lookupMap_insertMap_ne _ _ (fun hh => hs hh.symm), h]
        rw [ih _ s hl]
        have hA' : ¬(answerSection questionsMap a = some s) := by
          rw [hA]
          intro hh
          exact hs (Option.some.injEq _ _ |>.mp hh)
        simp [touchesSection_cons, respCount_cons, hA, hs, hA']

theorem calculateSectionScores_lookup (answers : List Answer)
    (questionsMap : Catalog) (s : String) :
    lookupMap (calculateSectionScores answers questionsMap) s =
      if touchesSection questionsMap answers s then
        some
          { sectionID := s
            yesCount := respCount questionsMap answers s "yes"
            noCount := respCount questionsMap answers s "no"
            naCount := respCount questionsMap answers s "n/a" }
      else none :=
  lookup_scoreFold_none questionsMap answers [] s rfl

theorem lookup_counts (answers : List Answer) (questionsMap : Catalog)
    (s : String) :
    ((lookupMap (calculateSectionScores answers questionsMap) s).getD
        { sectionID := s, yesCount := 0, noCount := 0, naCount := 0 }).yesCount =
      respCount questionsMap answers s "yes" ∧
    ((lookupMap (calculateSectionScores answers questionsMap) s).getD
        { sectionID := s, yesCount := 0, noCount := 0, naCount := 0 }).noCount =
      respCount questionsMap answers s "no" ∧
    ((lookupMap (calculateSectionScores answers questionsMap) s).getD
        { sectionID := s, yesCount := 0, noCount := 0, naCount := 0 }).naCount =
      respCount questionsMap answers s "n/a" := by
  rw [calculateSectionScores_lookup]
  cases ht : touchesSection questionsMap answers s with
  | true => simp
  | false =>
    simp [respCount_eq_zero_of_not_touches ht]

/-! ### Totals -/

theorem totalCount_cons (k : String) (v : SectionScore)
    (m : GoMap SectionScore) :
    totalCount ((k, v) :: m) = sectionTotal v + totalCount m := by
  simp [totalCount]

theorem totalCount_insertMap_none (k : String) (v : SectionScore) :
    ∀ m : GoMap SectionScore, lookupMap m k = none →
      totalCount (insertMap m k v) = totalCount m + sectionTotal v := by
  intro m
  induction m with
  | nil => intro _; simp [insertMap, totalCount]
  | cons p rest ih =>
    obtain ⟨pk, pv⟩ := p
    intro h
    by_cases hp : pk = k
    · subst hp
      simp [lookupMap] at h
    · have e : insertMap ((pk, pv) :: rest) k v =
          (pk, pv) :: insertMap rest k v := by simp [insertMap, hp]
      simp only [lookupMap, if_neg hp] at h
      rw [e, totalCount_cons, totalCount_cons, ih h]
      omega

theorem totalCount_insertMap_some (k : String) (v w : SectionScore) :
    ∀ m : GoMap SectionScore, lookupMap m k = some w →
      totalCount (insertMap m k v) + sectionTotal w =
        totalCount m + sectionTotal v := by
  intro m
  induction m with
  | nil => intro h; simp [lookupMap] at h
  | cons p rest ih =>
    obtain ⟨pk, pv⟩ := p
    intro h
    by_cases hp : pk = k
    · subst hp
      simp [lookupMap] at h
      have e : insertMap ((pk, pv) :: rest) pk v = (pk, v) :: rest := by
        simp [insertMap]
      rw [e, totalCount_cons, totalCount_cons, h]
      omega
    · have e : insertMap ((pk, pv) :: rest) k v =
          (pk, pv) :: insertMap rest k v := by simp [insertMap, hp]
      simp only [lookupMap, if_neg hp] at h
      rw [e, totalCount_cons, totalCount_cons]
      have := ih h
      omega

theorem totalCount_scoreFold (questionsMap : Catalog) (answers : List Answer) :
    ∀ m : GoMap SectionScore,
      totalCount (answers.foldl (scoreStep questionsMap) m) =
        totalCount m + answers.countP (recognizedAnswer questionsMap) := by
  induction answers with
  | nil => intro m; simp
  | cons a rest ih =>
    intro m
    rw [List.foldl_cons]
    cases hA : answerSection questionsMap a with
    | none =>
      rw [scoreStep_skip hA, ih m]
      have hra : recognizedAnswer questionsMap a = false := by
        simp [recognizedAnswer, hA]
      simp [List.countP_cons, hra]
    | some s =>
      rw [scoreStep_hit hA, ih]
      have hrec : (recognizedAnswer questionsMap a = true) ↔
          (toLowerGo a.response = "yes" ∨ toLowerGo a.response = "no" ∨
            toLowerGo a.response = "n/a") := by
        simp [recognizedAnswer, hA]
        tauto
      rw [List.countP_cons]
      cases hl : lookupMap m s with
      | none =>
        simp only [Option.getD_none]
        rw [totalCount_insertMap_none s _ m hl, sectionTotal_bumpScore]
        have h0 : sectionTotal
            { sectionID := s, yesCount := 0, noCount := 0, naCount := 0 } = 0 := rfl
        rw [h0]
        by_cases hc : toLowerGo a.response = "yes" ∨ toLowerGo a.response = "no" ∨
            toLowerGo a.response = "n/a"
        · rw [if_pos hc, if_pos (hrec.mpr hc)]
          omega
        · rw [if_neg hc, if_neg (fun hh => hc (hrec.mp hh))]
          omega
      | some w =>
        simp only [Option.getD_some]
        have h2 := totalCount_insertMap_some s (bumpScore w a.response) w m hl
        rw [sectionTotal_bumpScore] at h2
        by_cases hc : toLowerGo a.response = "yes" ∨ toLowerGo a.response = "no" ∨
            toLowerGo a.response = "n/a"
        · rw [if_pos hc] at h2
          rw [if_pos (hrec.mpr hc)]
          omega
        · rw [if_neg hc] at h2
          rw [if_neg (fun hh => hc (hrec.mp hh))]
          omega

theorem totalCount_calculateSectionScores (answers : List Answer)
    (questionsMap : Catalog) :
    totalCount (calculateSectionScores answers questionsMap) =
      answers.countP (recognizedAnswer questionsMap) := by
  have h := totalCount_scoreFold questionsMap answers []
  simpa [totalCount] using h

/-! ### Permutation invariance ingredients -/

theorem respCount_perm {l₁ l₂ : List Answer} (questionsMap : Catalog)
    (s r : String) (h : l₁.Perm l₂) :
    respCount questionsMap l₁ s r = respCount questionsMap l₂ s r :=
  h.countP_eq _

theorem touchesSection_perm {l₁ l₂ : List Answer} (questionsMap : Catalog)
    (s : String) (h : l₁.Perm l₂) :
    touchesSection questionsMap l₁ s = touchesSection questionsMap l₂ s := by
  apply Bool.eq_iff_iff.mpr
  simp only [touchesSection, List.any_eq_true]
  constructor <;> rintro ⟨x, hx, px⟩
  · exact ⟨x, h.subset hx, px⟩
  · exact ⟨x, h.symm.subset hx, px⟩

/-! ### Claims about the Scorer -/

/-- C1: for every answer list and catalog, the computed section-score map
gives, for each section `s` (an absent section standing for a zero tally),
a YesCount, NoCount and NaCount equal exactly to the number of answers whose
question id maps in the catalog to a question with that non-empty section id
and whose response case-insensitively equals "yes", "no" and "n/a"
respectively. -/
theorem scoring_section_counts_exact (answers : List Answer)
    (questionsMap : Catalog) (s : String) :
    ((lookupMap (calculateSectionScores answers questionsMap) s).getD
        { sectionID := s, yesCount := 0, noCount := 0, naCount := 0 }).yesCount =
      respCount questionsMap answers s "yes" ∧
    ((lookupMap (calculateSectionScores answers questionsMap) s).getD
        { sectionID := s, yesCount := 0, noCount := 0, naCount := 0 }).noCount =
      respCount questionsMap answers s "no" ∧
    ((lookupMap (calculateSectionScores answers questionsMap) s).getD
        { sectionID := s, yesCount := 0, noCount := 0, naCount := 0 }).naCount =
      respCount questionsMap answers s "n/a" :=
  lookup_counts answers questionsMap s

/-- C5: response matching is case-insensitive — a scoring step depends on
the response only through its lowercasing; an answer whose response matches
none of the three canonical values increments no counter anywhere while the
surrounding answers are still scored; and a single unrecognized-response
answer ("Maybe") to catalog question `q1` of section `s1` yields the tally
`{yes := 0, no := 0, na := 0}` for `s1`. -/
theorem scoring_case_insensitive_unrecognized_skipped (questionsMap : Catalog) :
    (∀ (m : GoMap SectionScore) (a : Answer) (r : String),
      toLowerGo a.response = toLowerGo r →
      scoreStep questionsMap m a =
        scoreStep questionsMap m { questionID := a.questionID, response := r }) ∧
    (∀ (l₁ l₂ : List Answer) (a : Answer),
      toLowerGo a.response ≠ "yes" → toLowerGo a.response ≠ "no" →
      toLowerGo a.response ≠ "n/a" →
      ∀ s : String,
        ((lookupMap (calculateSectionScores (l₁ ++ a :: l₂) questionsMap) s).getD
            { sectionID := s, yesCount := 0, noCount := 0, naCount := 0 }).yesCount =
          ((lookupMap (calculateSectionScores (l₁ ++ l₂) questionsMap) s).getD
            { sectionID := s, yesCount := 0, noCount := 0, naCount := 0 }).yesCount ∧
        ((lookupMap (calculateSectionScores (l₁ ++ a :: l₂) questionsMap) s).getD
            { sectionID := s, yesCount := 0, noCount := 0, naCount := 0 }).noCount =
          ((lookupMap (calculateSectionScores (l₁ ++ l₂) questionsMap) s).getD
            { sectionID := s, yesCount := 0, noCount := 0, naCount := 0 }).noCount ∧
        ((lookupMap (calculateSectionScores (l₁ ++ a :: l₂) questionsMap) s).getD
            { sectionID := s, yesCount := 0, noCount := 0, naCount := 0 }).naCount =
          ((lookupMap (calculateSectionScores (l₁ ++ l₂) questionsMap) s).getD
            { sectionID := s, yesCount := 0, noCount := 0, naCount := 0 }).naCount) ∧
    lookupMap (calculateSectionScores
        [{ questionID := "q1", response := "Maybe" }] exCatalog) "s1" =
      some { sectionID := "s1", yesCount := 0, noCount := 0, naCount := 0 } := by
  refine ⟨?_, ?_, ?_⟩
  · intro m a r h
    have hb : ∀ sc, bumpScore sc a.response = bumpScore sc r := by
      intro sc
      unfold bumpScore
      rw [h]
    have hAs : answerSection questionsMap
        { questionID := a.questionID, response := r } =
        answerSection questionsMap a := rfl
    rw [scoreStep_eq, scoreStep_eq, hAs]
    cases answerSection questionsMap a with
    | none => rfl
    | some s => simp only [hb]
  · intro l₁ l₂ a h1 h2 h3 s
    have hresp : ∀ r : String, toLowerGo a.response ≠ r →
        respCount questionsMap (l₁ ++ a :: l₂) s r =
          respCount questionsMap (l₁ ++ l₂) s r := by
      intro r hr
      simp only [respCount, List.countP_append, List.countP_cons,
        Bool.and_eq_true, beq_iff_eq]
      have : ¬(answerSection questionsMap a = some s ∧
          toLowerGo a.response = r) := fun hh => hr hh.2
      simp [this]
    obtain ⟨hy, hn, hna⟩ := lookup_counts (l₁ ++ a :: l₂) questionsMap s
    obtain ⟨hy', hn', hna'⟩ := lookup_counts (l₁ ++ l₂) questionsMap s
    refine ⟨?_, ?_, ?_⟩
    · rw [hy, hy', hresp "yes" h1]
    · rw [hn, hn', hresp "no" h2]
    · rw [hna, hna', hresp "n/a" h3]
  · rfl

/-- C5 witness: case-insensitive scoring of "YES" versus "yes", the
no-counter-incremented law at a concrete unrecognized answer, and the
concrete "Maybe" scenario, all at evaluable inputs. -/
theorem scoring_case_insensitive_unrecognized_skipped_witness :
    scoreStep exCatalog [] { questionID := "q1", response := "YES" } =
      scoreStep exCatalog [] { questionID := "q1", response := "yes" } ∧
    ((lookupMap (calculateSectionScores
        ([{ questionID := "q1", response := "Yes" }] ++
          { questionID := "q2", response := "Maybe" } ::
            [{ questionID := "q2", response := "no" }]) exCatalog) "s2").getD
        { sectionID := "s2", yesCount := 0, noCount := 0, naCount := 0 }).yesCount =
      ((lookupMap (calculateSectionScores
        ([{ questionID := "q1", response := "Yes" }] ++
          [{ questionID := "q2", response := "no" }]) exCatalog) "s2").getD
        { sectionID := "s2", yesCount := 0, noCount := 0, naCount := 0 }).yesCount :=
  ⟨(scoring_case_insensitive_unrecognized_skipped exCatalog).1 []
      { questionID := "q1", response := "YES" } "yes" (by decide),
    (((scoring_case_insensitive_unrecognized_skipped exCatalog).2.1
      [{ questionID := "q1", response := "Yes" }]
      [{ questionID := "q2", response := "no" }]
      { questionID := "q2", response := "Maybe" }
      (by decide) (by decide) (by decide) "s2").1)⟩

/-- C6: an answer whose question id is absent from the catalog, or whose
catalog question has an empty section id, contributes to no section score:
dropping it from anywhere in the answer list leaves the whole scoring
result unchanged (so the remaining answers are still scored), and scoring
it alone yields the empty map. -/
theorem scoring_skips_unknown_and_sectionless (questionsMap : Catalog)
    (a : Answer)
    (h : questionsMap a.questionID = none ∨
      ∃ q, questionsMap a.questionID = some q ∧ q.sectionID = "") :
    (∀ l₁ l₂ : List Answer,
      calculateSectionScores (l₁ ++ a :: l₂) questionsMap =
        calculateSectionScores (l₁ ++ l₂) questionsMap) ∧
    calculateSectionScores [a] questionsMap = [] := by
  have hA : answerSection questionsMap a = none := by
    rcases h with h | ⟨q, hq, hs⟩
    · simp [answerSection, h]
    · simp [answerSection, hq, hs]
  constructor
  · intro l₁ l₂
    unfold calculateSectionScores
    rw [List.foldl_append, List.foldl_append, List.foldl_cons,
      scoreStep_skip hA]
  · unfold calculateSectionScores
    rw [List.foldl_cons, scoreStep_skip hA]
    rfl

/-- C6 witness: scoring the single answer `{qX, "yes"}` against the concrete
catalog (which has no question `qX`) yields the empty score map. -/
theorem scoring_skips_unknown_and_sectionless_witness :
    calculateSectionScores [{ questionID := "qX", response := "yes" }]
      exCatalog = [] :=
  (scoring_skips_unknown_and_sectionless exCatalog
    { questionID := "qX", response := "yes" } (Or.inl (by decide))).2

/-- C7: the sum of YesCount + NoCount + NaCount over all sections of the
scoring result is at most the number of answers, with equality exactly when
every answer references a catalog question with a non-empty section id and
carries a case-insensitively canonical response. -/
theorem scoring_total_bound (answers : List Answer) (questionsMap : Catalog) :
    totalCount (calculateSectionScores answers questionsMap) ≤ answers.length ∧
    (totalCount (calculateSectionScores answers questionsMap) = answers.length ↔
      ∀ a ∈ answers, recognizedAnswer questionsMap a = true) := by
  rw [totalCount_calculateSectionScores]
  exact ⟨List.countP_le_length _, List.countP_eq_length⟩

/-- C9: the scoring result depends only on the content of its inputs — two
runs on the same pair agree, and permuting the answers leaves the resulting
key-value mapping (every lookup) unchanged. -/
theorem scoring_deterministic_order_independent (answers answers' : List Answer)
    (questionsMap : Catalog) :
    calculateSectionScores answers questionsMap =
      calculateSectionScores answers questionsMap ∧
    (answers.Perm answers' → ∀ s : String,
      lookupMap (calculateSectionScores answers questionsMap) s =
        lookupMap (calculateSectionScores answers' questionsMap) s) := by
  refine ⟨rfl, fun h s => ?_⟩
  rw [calculateSectionScores_lookup, calculateSectionScores_lookup,
    touchesSection_perm questionsMap s h,
    respCount_perm questionsMap s "yes" h,
    respCount_perm questionsMap s "no" h,
    respCount_perm questionsMap s "n/a" h]

/-- C9 witness: swapping two concrete answers leaves the lookup at `s1`
unchanged. -/
theorem scoring_deterministic_order_independent_witness :
    lookupMap (calculateSectionScores
      [{ questionID := "q1", response := "Yes" },
       { questionID := "q2", response := "No" }] exCatalog) "s1" =
    lookupMap (calculateSectionScores
      [{ questionID := "q2", response := "No" },
       { questionID := "q1", response := "Yes" }] exCatalog) "s1" :=
  (scoring_deterministic_order_independent
    [{ questionID := "q1", response := "Yes" },
     { questionID := "q2", response := "No" }]
    [{ questionID := "q2", response := "No" },
     { questionID := "q1", response := "Yes" }] exCatalog).2 (by decide) "s1"

/-! ### Lemmas about the comparison report construction -/

theorem sectionLoop_lookup (oldPRR newPRR : PRRSubmission) (keys : List String) :
    ∀ (r : PRRComparisonReport) (s : String),
      lookupMap ((keys.foldl (sectionLoopStep oldPRR newPRR) r).sectionComparison) s =
        if s ∈ keys then
          some { oldScores := (lookupMap oldPRR.sectionScores s).getD zeroScore
                 newScores := (lookupMap newPRR.sectionScores s).getD zeroScore }
        else lookupMap r.sectionComparison s := by
  induction keys with
  | nil => intro r s; simp
  | cons k rest ih =>
    intro r s
    rw [List.foldl_cons, ih]
    by_cases hs : s ∈ rest
    · rw [if_pos hs, if_pos (List.mem_cons.mpr (Or.inr hs))]
    · rw [if_neg hs]
      by_cases hk : s = k
      · subst hk
        rw [if_pos (List.mem_cons.mpr (Or.inl rfl))]
        show lookupMap (insertMap r.sectionComparison s _) s = _
        rw [lookupMap_insertMap_self]
      · rw [if_neg (by
          intro hmem
          rcases List.mem_cons.mp hmem with hm | hm
          · exact hk hm
          · exact hs hm)]
        show lookupMap (insertMap r.sectionComparison k _) s = _
        rw [lookupMap_insertMap_ne _ _ hk]

theorem sectionLoop_keysNodup (oldPRR newPRR : PRRSubmission)
    (keys : List String) :
    ∀ r : PRRComparisonReport, keysNodup r.sectionComparison →
      keysNodup ((keys.foldl (sectionLoopStep oldPRR newPRR) r).sectionComparison) := by
  induction keys with
  | nil => intro r h; exact h
  | cons k rest ih =>
    intro r h
    rw [List.foldl_cons]
    exact ih _ (keysNodup_insertMap _ _ _ h)

theorem sectionLoop_preserves (oldPRR newPRR : PRRSubmission)
    (keys : List String) :
    ∀ r : PRRComparisonReport,
      (keys.foldl (sectionLoopStep oldPRR newPRR) r).answerChanges =
          r.answerChanges ∧
      (keys.foldl (sectionLoopStep oldPRR newPRR) r).newlyAnsweredQuestions =
          r.newlyAnsweredQuestions ∧
      (keys.foldl (sectionLoopStep oldPRR newPRR) r).noLongerAnsweredQuestions =
          r.noLongerAnsweredQuestions := by
  induction keys with
  | nil => intro r; exact ⟨rfl, rfl, rfl⟩
  | cons k rest ih =>
    intro r
    rw [List.foldl_cons]
    exact ih _

theorem oldLoop_answerChanges (allQuestions : Catalog) (newA : GoMap String)
    (l : List (String × String)) :
    ∀ r : PRRComparisonReport,
      sliceList ((l.foldl (oldAnswersLoopStep allQuestions newA) r).answerChanges) =
        sliceList r.answerChanges ++ l.filterMap (changeF allQuestions newA) := by
  induction l with
  | nil => intro r; simp
  | cons p rest ih =>
    intro r
    rw [List.foldl_cons, ih, List.filterMap_cons]
    cases hl : lookupMap newA p.1 with
    | some n =>
      by_cases hne : p.2 = n
      · have e1 : oldAnswersLoopStep allQuestions newA r p = r := by
          simp [oldAnswersLoopStep, hl, hne]
        have e2 : changeF allQuestions newA p = none := by
          simp [changeF, hl, hne]
        rw [e1, e2]
      · have e1 : (oldAnswersLoopStep allQuestions newA r p).answerChanges =
            goAppend r.answerChanges
              { questionID := p.1, questionText := questionTextOf allQuestions p.1,
                oldAnswer := p.2, newAnswer := n } := by
          simp [oldAnswersLoopStep, hl, hne]
        have e2 : changeF allQuestions newA p =
            some { questionID := p.1,
                   questionText := questionTextOf allQuestions p.1,
                   oldAnswer := p.2, newAnswer := n } := by
          simp [changeF, hl, hne]
        rw [e1, e2]
        simp [sliceList, goAppend]
    | none =>
      have e1 : (oldAnswersLoopStep allQuestions newA r p).answerChanges =
          r.answerChanges := by
        simp [oldAnswersLoopStep, hl]
      have e2 : changeF allQuestions newA p = none := by simp [changeF, hl]
      rw [e1, e2]

theorem oldLoop_noLonger (allQuestions : Catalog) (newA : GoMap String)
    (l : List (String × String)) :
    ∀ r : PRRComparisonReport,
      sliceList ((l.foldl (oldAnswersLoopStep allQuestions newA) r).noLongerAnsweredQuestions) =
        sliceList r.noLongerAnsweredQuestions ++
          l.filterMap (noLongerF allQuestions newA) := by
  induction l with
  | nil => intro r; simp
  | cons p rest ih =>
    intro r
    rw [List.foldl_cons, ih, List.filterMap_cons]
    cases hl : lookupMap newA p.1 with
    | some n =>
      have e2 : noLongerF allQuestions newA p = none := by
        simp [noLongerF, hl]
      by_cases hne : p.2 = n
      · have e1 : oldAnswersLoopStep allQuestions newA r p = r := by
          simp [oldAnswersLoopStep, hl, hne]
        rw [e1, e2]
      · have e1 : (oldAnswersLoopStep allQuestions newA r p).noLongerAnsweredQuestions =
            r.noLongerAnsweredQuestions := by
          simp [oldAnswersLoopStep, hl, hne]
        rw [e1, e2]
    | none =>
      have e1 : (oldAnswersLoopStep allQuestions newA r p).noLongerAnsweredQuestions =
          goAppend r.noLongerAnsweredQuestions
            { questionID := p.1, questionText := questionTextOf allQuestions p.1,
              oldAnswer := p.2, newAnswer := "" } := by
        simp [oldAnswersLoopStep, hl]
      have e2 : noLongerF allQuestions newA p =
          some { questionID := p.1,
                 questionText := questionTextOf allQuestions p.1,
                 oldAnswer := p.2, newAnswer := "" } := by
        simp [noLongerF, hl]
      rw [e1, e2]
      simp [sliceList, goAppend]

theorem oldLoop_preserves (allQuestions : Catalog) (newA : GoMap String)
    (l : List (String × String)) :
    ∀ r : PRRComparisonReport,
      (l.foldl (oldAnswersLoopStep allQuestions newA) r).newlyAnsweredQuestions =
          r.newlyAnsweredQuestions ∧
      (l.foldl (oldAnswersLoopStep allQuestions newA) r).sectionComparison =
          r.sectionComparison := by
  induction l with
  | nil => intro r; exact ⟨rfl, rfl⟩
  | cons p rest ih =>
    intro r
    rw [List.foldl_cons]
    have e : (oldAnswersLoopStep allQuestions newA r p).newlyAnsweredQuestions =
        r.newlyAnsweredQuestions ∧
        (oldAnswersLoopStep allQuestions newA r p).sectionComparison =
          r.sectionComparison := by
      unfold oldAnswersLoopStep
      cases lookupMap newA p.1 with
      | some n =>
        by_cases hne : p.2 = n <;> simp [hne]
      | none => exact ⟨rfl, rfl⟩
    obtain ⟨e1, e2⟩ := ih (oldAnswersLoopStep allQuestions newA r p)
    exact ⟨e1.trans e.1, e2.trans e.2⟩

theorem newLoop_newly (allQuestions : Catalog) (oldA : GoMap String)
    (l : List (String × String)) :
    ∀ r : PRRComparisonReport,
      sliceList ((l.foldl (newAnswersLoopStep allQuestions oldA) r).newlyAnsweredQuestions) =
        sliceList r.newlyAnsweredQuestions ++
          l.filterMap (newlyF allQuestions oldA) := by
  induction l with
  | nil => intro r; simp
  | cons p rest ih =>
    intro r
    rw [List.foldl_cons, ih, List.filterMap_cons]
    cases hl : lookupMap oldA p.1 with
    | some n =>
      have e1 : newAnswersLoopStep allQuestions oldA r p = r := by
        simp [newAnswersLoopStep, hl]
      have e2 : newlyF allQuestions oldA p = none := by simp [newlyF, hl]
      rw [e1, e2]
    | none =>
      have e1 : (newAnswersLoopStep allQuestions oldA r p).newlyAnsweredQuestions =
          goAppend r.newlyAnsweredQuestions
            { questionID := p.1, questionText := questionTextOf allQuestions p.1,
              oldAnswer := "", newAnswer := p.2 } := by
        simp [newAnswersLoopStep, hl]
      have e2 : newlyF allQuestions oldA p =
          some { questionID := p.1,
                 questionText := questionTextOf allQuestions p.1,
                 oldAnswer := "", newAnswer := p.2 } := by
        simp [newlyF, hl]
      rw [e1, e2]
      simp [sliceList, goAppend]

theorem newLoop_preserves (allQuestions : Catalog) (oldA : GoMap String)
    (l : List (String × String)) :
    ∀ r : PRRComparisonReport,
      (l.foldl (newAnswersLoopStep allQuestions oldA) r).answerChanges =
          r.answerChanges ∧
      (l.foldl (newAnswersLoopStep allQuestions oldA) r).noLongerAnsweredQuestions =
          r.noLongerAnsweredQuestions ∧
      (l.foldl (newAnswersLoopStep allQuestions oldA) r).sectionComparison =
          r.sectionComparison := by
  induction l with
  | nil => intro r; exact ⟨rfl, rfl, rfl⟩
  | cons p rest ih =>
    intro r
    rw [List.foldl_cons]
    have e : (newAnswersLoopStep allQuestions oldA r p).answerChanges =
        r.answerChanges ∧
        (newAnswersLoopStep allQuestions oldA r p).noLongerAnsweredQuestions =
          r.noLongerAnsweredQuestions ∧
        (newAnswersLoopStep allQuestions oldA r p).sectionComparison =
          r.sectionComparison := by
      unfold newAnswersLoopStep
      cases lookupMap oldA p.1 with
      | some n => exact ⟨rfl, rfl, rfl⟩
      | none => exact ⟨rfl, rfl, rfl⟩
    obtain ⟨e1, e2, e3⟩ := ih (newAnswersLoopStep allQuestions oldA r p)
    exact ⟨e1.trans e.1, e2.trans e.2.1, e3.trans e.2.2⟩

theorem keysNodup_buildAnswersMap_aux (l : List Answer) :
    ∀ m : GoMap String, keysNodup m →
      keysNodup (l.foldl
        (fun m ans => insertMap m ans.questionID ans.response) m) := by
  induction l with
  | nil => intro m h; exact h
  | cons a rest ih =>
    intro m h
    rw [List.foldl_cons]
    exact ih _ (keysNodup_insertMap _ _ _ h)

theorem keysNodup_buildAnswersMap (answers : List Answer) :
    keysNodup (buildAnswersMap answers) :=
  keysNodup_buildAnswersMap_aux answers [] (by simp [keysNodup, keysOf])

theorem mem_keysOf_buildAnswersMap_aux (l : List Answer) :
    ∀ (m : GoMap String) (q : String),
      (q ∈ keysOf (l.foldl
          (fun m ans => insertMap m ans.questionID ans.response) m) ↔
        q ∈ keysOf m ∨ ∃ a ∈ l, a.questionID = q) := by
  induction l with
  | nil => intro m q; simp
  | cons a rest ih =>
    intro m q
    rw [List.foldl_cons, ih, mem_keysOf_insertMap]
    constructor
    · rintro ((hm | hm) | ⟨x, hx, hq⟩)
      · exact Or.inl hm
      · exact Or.inr ⟨a, List.mem_cons.mpr (Or.inl rfl), hm.symm⟩
      · exact Or.inr ⟨x, List.mem_cons.mpr (Or.inr hx), hq⟩
    · rintro (hm | ⟨x, hx, hq⟩)
      · exact Or.inl (Or.inl hm)
      · rcases List.mem_cons.mp hx with hh | hh
        · subst hh
          exact Or.inl (Or.inr hq.symm)
        · exact Or.inr ⟨x, hh, hq⟩

theorem mem_keysOf_buildAnswersMap (answers : List Answer) (q : String) :
    q ∈ keysOf (buildAnswersMap answers) ↔ ∃ a ∈ answers, a.questionID = q := by
  rw [buildAnswersMap, mem_keysOf_buildAnswersMap_aux]
  simp [keysOf]

theorem fill_sectionComparison_lookup (r : PRRComparisonReport)
    (oldPRR newPRR : PRRSubmission) (allQuestions : Catalog)
    (hr : r.sectionComparison = []) (s : String) :
    lookupMap ((fillComparisonReport r oldPRR newPRR allQuestions).sectionComparison) s =
      if s ∈ keysOf oldPRR.sectionScores ∨ s ∈ keysOf newPRR.sectionScores then
        some { oldScores := (lookupMap oldPRR.sectionScores s).getD zeroScore
               newScores := (lookupMap newPRR.sectionScores s).getD zeroScore }
      else none := by
  unfold fillComparisonReport
  rw [(newLoop_preserves allQuestions _ _ _).2.2,
    (oldLoop_preserves allQuestions _ _ _).2,
    sectionLoop_lookup]
  by_cases hs : s ∈ (keysOf oldPRR.sectionScores ++
      keysOf newPRR.sectionScores).dedup
  · rw [if_pos hs, if_pos (by
      rw [List.mem_dedup, List.mem_append] at hs
      exact hs)]
  · rw [if_neg hs, if_neg (by
      rw [List.mem_dedup, List.mem_append] at hs
      exact hs), hr]
    rfl

theorem fill_sectionComparison_keysNodup (r : PRRComparisonReport)
    (oldPRR newPRR : PRRSubmission) (allQuestions : Catalog)
    (hr : r.sectionComparison = []) :
    keysNodup ((fillComparisonReport r oldPRR newPRR allQuestions).sectionComparison) := by
  unfold fillComparisonReport
  rw [(newLoop_preserves allQuestions _ _ _).2.2,
    (oldLoop_preserves allQuestions _ _ _).2]
  apply sectionLoop_keysNodup
  rw [hr]
  simp [keysNodup, keysOf]

theorem fill_answerChanges (r : PRRComparisonReport)
    (oldPRR newPRR : PRRSubmission) (allQuestions : Catalog) :
    sliceList ((fillComparisonReport r oldPRR newPRR allQuestions).answerChanges) =
      sliceList r.answerChanges ++
        (buildAnswersMap oldPRR.answers).filterMap
          (changeF allQuestions (buildAnswersMap newPRR.answers)) := by
  unfold fillComparisonReport
  rw [(newLoop_preserves allQuestions _ _ _).1, oldLoop_answerChanges,
    (sectionLoop_preserves oldPRR newPRR _ _).1]

theorem fill_noLonger (r : PRRComparisonReport)
    (oldPRR newPRR : PRRSubmission) (allQuestions : Catalog) :
    sliceList ((fillComparisonReport r oldPRR newPRR allQuestions).noLongerAnsweredQuestions) =
      sliceList r.noLongerAnsweredQuestions ++
        (buildAnswersMap oldPRR.answers).filterMap
          (noLongerF allQuestions (buildAnswersMap newPRR.answers)) := by
  unfold fillComparisonReport
  rw [(newLoop_preserves allQuestions _ _ _).2.1, oldLoop_noLonger,
    (sectionLoop_preserves oldPRR newPRR _ _).2.2]

theorem fill_newly (r : PRRComparisonReport)
    (oldPRR newPRR : PRRSubmission) (allQuestions : Catalog) :
    sliceList ((fillComparisonReport r oldPRR newPRR allQuestions).newlyAnsweredQuestions) =
      sliceList r.newlyAnsweredQuestions ++
        (buildAnswersMap newPRR.answers).filterMap
          (newlyF allQuestions (buildAnswersMap oldPRR.answers)) := by
  unfold fillComparisonReport
  rw [newLoop_newly, (oldLoop_preserves allQuestions _ _ _).1,
    (sectionLoop_preserves oldPRR newPRR _ _).2.1]

theorem gen_answerChanges (oldPRR newPRR : PRRSubmission)
    (allQuestions : Catalog) (serviceID : String) :
    sliceList ((generateComparisonReport oldPRR newPRR allQuestions
        serviceID).answerChanges) =
      (buildAnswersMap oldPRR.answers).filterMap
        (changeF allQuestions (buildAnswersMap newPRR.answers)) := by
  unfold generateComparisonReport
  rw [fill_answerChanges]
  rfl

theorem gen_noLonger (oldPRR newPRR : PRRSubmission)
    (allQuestions : Catalog) (serviceID : String) :
    sliceList ((generateComparisonReport oldPRR newPRR allQuestions
        serviceID).noLongerAnsweredQuestions) =
      (buildAnswersMap oldPRR.answers).filterMap
        (noLongerF allQuestions (buildAnswersMap newPRR.answers)) := by
  unfold generateComparisonReport
  rw [fill_noLonger]
  rfl

theorem gen_newly (oldPRR newPRR : PRRSubmission)
    (allQuestions : Catalog) (serviceID : String) :
    sliceList ((generateComparisonReport oldPRR newPRR allQuestions
        serviceID).newlyAnsweredQuestions) =
      (buildAnswersMap newPRR.answers).filterMap
        (newlyF allQuestions (buildAnswersMap oldPRR.answers)) := by
  unfold generateComparisonReport
  rw [fill_newly]
  rfl

theorem gen_sectionComparison_lookup (oldPRR newPRR : PRRSubmission)
    (allQuestions : Catalog) (serviceID : String) (s : String) :
    lookupMap ((generateComparisonReport oldPRR newPRR allQuestions
        serviceID).sectionComparison) s =
      if s ∈ keysOf oldPRR.sectionScores ∨ s ∈ keysOf newPRR.sectionScores then
        some { oldScores := (lookupMap oldPRR.sectionScores s).getD zeroScore
               newScores := (lookupMap newPRR.sectionScores s).getD zeroScore }
      else none := by
  unfold generateComparisonReport
  rw [fill_sectionComparison_lookup]
  rfl

theorem changeF_eq_some (allQuestions : Catalog) (newA : GoMap String)
    (p : String × String) (d : AnswerChangeDetail) :
    changeF allQuestions newA p = some d ↔
      ∃ n, lookupMap newA p.1 = some n ∧ p.2 ≠ n ∧
        d = { questionID := p.1,
              questionText := questionTextOf allQuestions p.1,
              oldAnswer := p.2, newAnswer := n } := by
  unfold changeF
  cases hl : lookupMap newA p.1 with
  | none => simp
  | some n =>
    by_cases hne : p.2 = n
    · simp [hne]
    · simp [hne, eq_comm]
      intro _ hh
      exact hne hh.symm

theorem noLongerF_eq_some (allQuestions : Catalog) (newA : GoMap String)
    (p : String × String) (d : AnswerChangeDetail) :
    noLongerF allQuestions newA p = some d ↔
      lookupMap newA p.1 = none ∧
        d = { questionID := p.1,
              questionText := questionTextOf allQuestions p.1,
              oldAnswer := p.2, newAnswer := "" } := by
  unfold noLongerF
  cases hl : lookupMap newA p.1 with
  | none => simp [eq_comm]
  | some n => simp

theorem newlyF_eq_some (allQuestions : Catalog) (oldA : GoMap String)
    (p : String × String) (d : AnswerChangeDetail) :
    newlyF allQuestions oldA p = some d ↔
      lookupMap oldA p.1 = none ∧
        d = { questionID := p.1,
              questionText := questionTextOf allQuestions p.1,
              oldAnswer := "", newAnswer := p.2 } := by
  unfold newlyF
  cases hl : lookupMap oldA p.1 with
  | none => simp [eq_comm]
  | some n => simp

theorem mem_gen_answerChanges_iff (oldPRR newPRR : PRRSubmission)
    (allQuestions : Catalog) (serviceID : String) (d : AnswerChangeDetail) :
    d ∈ sliceList ((generateComparisonReport oldPRR newPRR allQuestions
        serviceID).answerChanges) ↔
      lookupMap (buildAnswersMap oldPRR.answers) d.questionID =
          some d.oldAnswer ∧
        lookupMap (buildAnswersMap newPRR.answers) d.questionID =
          some d.newAnswer ∧
        d.oldAnswer ≠ d.newAnswer ∧
        d.questionText = questionTextOf allQuestions d.questionID := by
  rw [gen_answerChanges, List.mem_filterMap]
  constructor
  · rintro ⟨p, hp, hf⟩
    rw [changeF_eq_some] at hf
    obtain ⟨n, hn, hne, rfl⟩ := hf
    have hl := (mem_iff_lookupMap _ _ _
      (keysNodup_buildAnswersMap oldPRR.answers)).mp hp
    exact ⟨hl, hn, hne, rfl⟩
  · rintro ⟨h1, h2, h3, h4⟩
    refine ⟨(d.questionID, d.oldAnswer), ?_, ?_⟩
    · exact (mem_iff_lookupMap _ _ _
        (keysNodup_buildAnswersMap oldPRR.answers)).mpr h1
    · rw [changeF_eq_some]
      refine ⟨d.newAnswer, h2, h3, ?_⟩
      cases d
      simp_all

theorem mem_gen_newly_iff (oldPRR newPRR : PRRSubmission)
    (allQuestions : Catalog) (serviceID : String) (d : AnswerChangeDetail) :
    d ∈ sliceList ((generateComparisonReport oldPRR newPRR allQuestions
        serviceID).newlyAnsweredQuestions) ↔
      lookupMap (buildAnswersMap newPRR.answers) d.questionID =
          some d.newAnswer ∧
        lookupMap (buildAnswersMap oldPRR.answers) d.questionID = none ∧
        d.oldAnswer = "" ∧
        d.questionText = questionTextOf allQuestions d.questionID := by
  rw [gen_newly, List.mem_filterMap]
  constructor
  · rintro ⟨p, hp, hf⟩
    rw [newlyF_eq_some] at hf
    obtain ⟨hn, rfl⟩ := hf
    have hl := (mem_iff_lookupMap _ _ _
      (keysNodup_buildAnswersMap newPRR.answers)).mp hp
    exact ⟨hl, hn, rfl, rfl⟩
  · rintro ⟨h1, h2, h3, h4⟩
    refine ⟨(d.questionID, d.newAnswer), ?_, ?_⟩
    · exact (mem_iff_lookupMap _ _ _
        (keysNodup_buildAnswersMap newPRR.answers)).mpr h1
    · rw [newlyF_eq_some]
      refine ⟨h2, ?_⟩
      cases d
      simp_all

theorem mem_gen_noLonger_iff (oldPRR newPRR : PRRSubmission)
    (allQuestions : Catalog) (serviceID : String) (d : AnswerChangeDetail) :
    d ∈ sliceList ((generateComparisonReport oldPRR newPRR allQuestions
        serviceID).noLongerAnsweredQuestions) ↔
      lookupMap (buildAnswersMap oldPRR.answers) d.questionID =
          some d.oldAnswer ∧
        lookupMap (buildAnswersMap newPRR.answers) d.questionID = none ∧
        d.newAnswer = "" ∧
        d.questionText = questionTextOf allQuestions d.questionID := by
  rw [gen_noLonger, List.mem_filterMap]
  constructor
  · rintro ⟨p, hp, hf⟩
    rw [noLongerF_eq_some] at hf
    obtain ⟨hn, rfl⟩ := hf
    have hl := (mem_iff_lookupMap _ _ _
      (keysNodup_buildAnswersMap oldPRR.answers)).mp hp
    exact ⟨hl, hn, rfl, rfl⟩
  · rintro ⟨h1, h2, h3, h4⟩
    refine ⟨(d.questionID, d.oldAnswer), ?_, ?_⟩
    · exact (mem_iff_lookupMap _ _ _
        (keysNodup_buildAnswersMap oldPRR.answers)).mpr h1
    · rw [noLongerF_eq_some]
      refine ⟨h2, ?_⟩
      cases d
      simp_all

theorem mem_map_gen_newly_iff (oldPRR newPRR : PRRSubmission)
    (allQuestions : Catalog) (serviceID : String) (q : String) :
    q ∈ (sliceList ((generateComparisonReport oldPRR newPRR allQuestions
        serviceID).newlyAnsweredQuestions)).map AnswerChangeDetail.questionID ↔
      ((lookupMap (buildAnswersMap newPRR.answers) q).isSome = true ∧
        lookupMap (buildAnswersMap oldPRR.answers) q = none) := by
  rw [List.mem_map]
  constructor
  · rintro ⟨d, hd, rfl⟩
    rw [mem_gen_newly_iff] at hd
    exact ⟨by rw [hd.1]; rfl, hd.2.1⟩
  · rintro ⟨h1, h2⟩
    cases hn : lookupMap (buildAnswersMap newPRR.answers) q with
    | none => rw [hn] at h1; simp at h1
    | some n =>
      refine ⟨{ questionID := q,
                questionText := questionTextOf allQuestions q,
                oldAnswer := "", newAnswer := n }, ?_, rfl⟩
      rw [mem_gen_newly_iff]
      exact ⟨hn, h2, rfl, rfl⟩

theorem mem_map_gen_noLonger_iff (oldPRR newPRR : PRRSubmission)
    (allQuestions : Catalog) (serviceID : String) (q : String) :
    q ∈ (sliceList ((generateComparisonReport oldPRR newPRR allQuestions
        serviceID).noLongerAnsweredQuestions)).map AnswerChangeDetail.questionID ↔
      ((lookupMap (buildAnswersMap oldPRR.answers) q).isSome = true ∧
        lookupMap (buildAnswersMap newPRR.answers) q = none) := by
  rw [List.mem_map]
  constructor
  · rintro ⟨d, hd, rfl⟩
    rw [mem_gen_noLonger_iff] at hd
    exact ⟨by rw [hd.1]; rfl, hd.2.1⟩
  · rintro ⟨h1, h2⟩
    cases hn : lookupMap (buildAnswersMap oldPRR.answers) q with
    | none => rw [hn] at h1; simp at h1
    | some n =>
      refine ⟨{ questionID := q,
                questionText := questionTextOf allQuestions q,
                oldAnswer := n, newAnswer := "" }, ?_, rfl⟩
      rw [mem_gen_noLonger_iff]
      exact ⟨hn, h2, rfl, rfl⟩

theorem countQ_filterMap_zero_of_not_mem
    (f : String × String → Option AnswerChangeDetail)
    (hf : ∀ p d, f p = some d → d.questionID = p.1)
    (l : List (String × String)) (qid : String)
    (h : qid ∉ keysOf l) :
    countQ (l.filterMap f) qid = 0 := by
  induction l with
  | nil => rfl
  | cons p rest ih =>
    simp only [keysOf, List.map_cons, List.mem_cons, not_or] at h
    have hrest : qid ∉ keysOf rest := by simpa [keysOf] using h.2
    rw [List.filterMap_cons]
    cases hp : f p with
    | none => exact ih hrest
    | some d =>
      have hd : (d.questionID == qid) = false := by
        rw [hf p d hp, beq_eq_false_iff_ne]
        exact fun hh => h.1 hh.symm
      have h2 := ih hrest
      simp only [countQ, List.countP_cons, hd] at h2 ⊢
      simpa using h2

theorem countQ_filterMap_zero_of_none
    (f : String × String → Option AnswerChangeDetail)
    (hf : ∀ p d, f p = some d → d.questionID = p.1)
    (l : List (String × String)) (qid : String)
    (h : ∀ p : String × String, p.1 = qid → f p = none) :
    countQ (l.filterMap f) qid = 0 := by
  induction l with
  | nil => rfl
  | cons p rest ih =>
    rw [List.filterMap_cons]
    cases hp : f p with
    | none => exact ih
    | some d =>
      have hd : (d.questionID == qid) = false := by
        rw [hf p d hp, beq_eq_false_iff_ne]
        intro hh
        rw [h p hh] at hp
        cases hp
      simp only [countQ, List.countP_cons, hd] at ih ⊢
      simpa using ih

theorem countQ_filterMap_le_one
    (f : String × String → Option AnswerChangeDetail)
    (hf : ∀ p d, f p = some d → d.questionID = p.1)
    (l : List (String × String)) (h : keysNodup l) (qid : String) :
    countQ (l.filterMap f) qid ≤ 1 := by
  induction l with
  | nil => simp [countQ]
  | cons p rest ih =>
    rw [keysNodup, keysOf] at h
    simp only [List.map_cons, List.nodup_cons] at h
    have hrest : keysNodup rest := h.2
    rw [List.filterMap_cons]
    cases hp : f p with
    | none => exact ih hrest
    | some d =>
      by_cases hq : p.1 = qid
      · have h0 : countQ (rest.filterMap f) qid = 0 :=
          countQ_filterMap_zero_of_not_mem f hf rest qid (hq ▸ h.1)
        simp only [countQ, List.countP_cons] at h0 ⊢
        rw [h0]
        split_ifs <;> omega
      · have hd : (d.questionID == qid) = false := by
          rw [hf p d hp, beq_eq_false_iff_ne]
          exact hq
        have h2 := ih hrest
        simp only [countQ, List.countP_cons, hd] at h2 ⊢
        simpa using h2

theorem oldLoop_answerChanges_isSome (allQuestions : Catalog)
    (newA : GoMap String) (l : List (String × String)) :
    ∀ r : PRRComparisonReport, r.answerChanges.isSome = true →
      ((l.foldl (oldAnswersLoopStep allQuestions newA) r).answerChanges).isSome =
        true := by
  induction l with
  | nil => intro r h; exact h
  | cons p rest ih =>
    intro r h
    rw [List.foldl_cons]
    apply ih
    unfold oldAnswersLoopStep
    cases lookupMap newA p.1 with
    | some n => by_cases hne : p.2 = n <;> simp [hne, goAppend, h]
    | none => exact h

theorem oldLoop_noLonger_isSome (allQuestions : Catalog)
    (newA : GoMap String) (l : List (String × String)) :
    ∀ r : PRRComparisonReport, r.noLongerAnsweredQuestions.isSome = true →
      ((l.foldl (oldAnswersLoopStep allQuestions newA)
        r).noLongerAnsweredQuestions).isSome = true := by
  induction l with
  | nil => intro r h; exact h
  | cons p rest ih =>
    intro r h
    rw [List.foldl_cons]
    apply ih
    unfold oldAnswersLoopStep
    cases lookupMap newA p.1 with
    | some n => by_cases hne : p.2 = n <;> simp [hne, goAppend, h]
    | none => simp [goAppend]

theorem newLoop_newly_isSome (allQuestions : Catalog)
    (oldA : GoMap String) (l : List (String × String)) :
    ∀ r : PRRComparisonReport, r.newlyAnsweredQuestions.isSome = true →
      ((l.foldl (newAnswersLoopStep allQuestions oldA)
        r).newlyAnsweredQuestions).isSome = true := by
  induction l with
  | nil => intro r h; exact h
  | cons p rest ih =>
    intro r h
    rw [List.foldl_cons]
    apply ih
    unfold newAnswersLoopStep
    cases lookupMap oldA p.1 with
    | some n => exact h
    | none => simp [goAppend]

theorem gen_collections_isSome (oldPRR newPRR : PRRSubmission)
    (allQuestions : Catalog) (serviceID : String) :
    ((generateComparisonReport oldPRR newPRR allQuestions
        serviceID).answerChanges).isSome = true ∧
    ((generateComparisonReport oldPRR newPRR allQuestions
        serviceID).newlyAnsweredQuestions).isSome = true ∧
    ((generateComparisonReport oldPRR newPRR allQuestions
        serviceID).noLongerAnsweredQuestions).isSome = true := by
  unfold generateComparisonReport fillComparisonReport
  refine ⟨?_, ?_, ?_⟩
  · rw [(newLoop_preserves allQuestions _ _ _).1]
    apply oldLoop_answerChanges_isSome
    rw [(sectionLoop_preserves oldPRR newPRR _ _).1]
    rfl
  · apply newLoop_newly_isSome
    rw [(oldLoop_preserves allQuestions _ _ _).1,
      (sectionLoop_preserves oldPRR newPRR _ _).2.1]
    rfl
  · rw [(newLoop_preserves allQuestions _ _ _).2.1]
    apply oldLoop_noLonger_isSome
    rw [(sectionLoop_preserves oldPRR newPRR _ _).2.2]
    rfl

/-! ### Claims about the Comparator -/

/-- C2 (violated by the handler path): `generateComparisonReport` always
returns the three change collections explicitly present (non-nil), but the
duplicated report construction inside `comparePRRSubmissionsHandler` leaves
them at the nil slice: at the concrete submissions `exSubA`/`exSubA2`
(identical answers, so no entries are appended) all three collections on
the handler path are `none` (serialized as JSON `null`), while
`generateComparisonReport` on the same inputs yields `some []`. -/
theorem comparison_collections_nil_on_handler_path :
    (∀ (oldPRR newPRR : PRRSubmission) (allQuestions : Catalog)
        (serviceID : String),
      ((generateComparisonReport oldPRR newPRR allQuestions
          serviceID).answerChanges).isSome = true ∧
      ((generateComparisonReport oldPRR newPRR allQuestions
          serviceID).newlyAnsweredQuestions).isSome = true ∧
      ((generateComparisonReport oldPRR newPRR allQuestions
          serviceID).noLongerAnsweredQuestions).isSome = true) ∧
    (comparePRRHandlerReport exSubA exSubA2 exCatalog "svc").answerChanges =
      none ∧
    (comparePRRHandlerReport exSubA exSubA2 exCatalog
      "svc").newlyAnsweredQuestions = none ∧
    (comparePRRHandlerReport exSubA exSubA2 exCatalog
      "svc").noLongerAnsweredQuestions = none ∧
    (generateComparisonReport exSubA exSubA2 exCatalog "svc").answerChanges =
      some [] ∧
    (generateComparisonReport exSubA exSubA2 exCatalog
      "svc").newlyAnsweredQuestions = some [] ∧
    (generateComparisonReport exSubA exSubA2 exCatalog
      "svc").noLongerAnsweredQuestions = some [] :=
  ⟨gen_collections_isSome, by decide, by decide, by decide,
    by decide, by decide, by decide⟩

/-- C3: in a `generateComparisonReport` result, every question id occurs in
at most one of the three collections (counting entries across all three),
and it occurs in AnswerChanges only when it is answered in both submissions
with responses that differ under exact, case-sensitive comparison. -/
theorem comparison_partition (oldPRR newPRR : PRRSubmission)
    (allQuestions : Catalog) (serviceID : String) (qid : String) :
    countQ (sliceList ((generateComparisonReport oldPRR newPRR allQuestions
        serviceID).answerChanges)) qid +
      countQ (sliceList ((generateComparisonReport oldPRR newPRR allQuestions
        serviceID).newlyAnsweredQuestions)) qid +
      countQ (sliceList ((generateComparisonReport oldPRR newPRR allQuestions
        serviceID).noLongerAnsweredQuestions)) qid ≤ 1 ∧
    (qid ∈ (sliceList ((generateComparisonReport oldPRR newPRR allQuestions
        serviceID).answerChanges)).map AnswerChangeDetail.questionID →
      ∃ o n, lookupMap (buildAnswersMap oldPRR.answers) qid = some o ∧
        lookupMap (buildAnswersMap newPRR.answers) qid = some n ∧ o ≠ n) := by
  have hfC : ∀ p d,
      changeF allQuestions (buildAnswersMap newPRR.answers) p = some d →
        d.questionID = p.1 := by
    intro p d h
    rw [changeF_eq_some] at h
    obtain ⟨n, -, -, rfl⟩ := h
    rfl
  have hfL : ∀ p d,
      noLongerF allQuestions (buildAnswersMap newPRR.answers) p = some d →
        d.questionID = p.1 := by
    intro p d h
    rw [noLongerF_eq_some] at h
    obtain ⟨-, rfl⟩ := h
    rfl
  have hfN : ∀ p d,
      newlyF allQuestions (buildAnswersMap oldPRR.answers) p = some d →
        d.questionID = p.1 := by
    intro p d h
    rw [newlyF_eq_some] at h
    obtain ⟨-, rfl⟩ := h
    rfl
  constructor
  · rw [gen_answerChanges, gen_newly, gen_noLonger]
    by_cases hmem : qid ∈ keysOf (buildAnswersMap oldPRR.answers)
    · have hOld : lookupMap (buildAnswersMap oldPRR.answers) qid ≠ none := by
        intro hnone
        rw [lookupMap_eq_none_iff] at hnone
        exact hnone hmem
      obtain ⟨o, ho⟩ : ∃ o,
          lookupMap (buildAnswersMap oldPRR.answers) qid = some o := by
        cases hl : lookupMap (buildAnswersMap oldPRR.answers) qid with
        | none => exact absurd hl hOld
        | some o => exact ⟨o, rfl⟩
      have hN0 : countQ ((buildAnswersMap newPRR.answers).filterMap
          (newlyF allQuestions (buildAnswersMap oldPRR.answers))) qid = 0 := by
        apply countQ_filterMap_zero_of_none _ hfN
        intro p hp
        unfold newlyF
        rw [hp, ho]
      cases hnew : lookupMap (buildAnswersMap newPRR.answers) qid with
      | some n =>
        have hL0 : countQ ((buildAnswersMap oldPRR.answers).filterMap
            (noLongerF allQuestions (buildAnswersMap newPRR.answers))) qid =
            0 := by
          apply countQ_filterMap_zero_of_none _ hfL
          intro p hp
          unfold noLongerF
          rw [hp, hnew]
        have hC1 : countQ ((buildAnswersMap oldPRR.answers).filterMap
            (changeF allQuestions (buildAnswersMap newPRR.answers))) qid ≤ 1 :=
          countQ_filterMap_le_one _ hfC _
            (keysNodup_buildAnswersMap oldPRR.answers) qid
        omega
      | none =>
        have hC0 : countQ ((buildAnswersMap oldPRR.answers).filterMap
            (changeF allQuestions (buildAnswersMap newPRR.answers))) qid =
            0 := by
          apply countQ_filterMap_zero_of_none _ hfC
          intro p hp
          unfold changeF
          rw [hp, hnew]
        have hL1 : countQ ((buildAnswersMap oldPRR.answers).filterMap
            (noLongerF allQuestions (buildAnswersMap newPRR.answers))) qid ≤
            1 :=
          countQ_filterMap_le_one _ hfL _
            (keysNodup_buildAnswersMap oldPRR.answers) qid
        have hN1 : countQ ((buildAnswersMap newPRR.answers).filterMap
            (newlyF allQuestions (buildAnswersMap oldPRR.answers))) qid ≤ 1 :=
          countQ_filterMap_le_one _ hfN _
            (keysNodup_buildAnswersMap newPRR.answers) qid
        omega
    · have hC0 := countQ_filterMap_zero_of_not_mem _ hfC
        (buildAnswersMap oldPRR.answers) qid hmem
      have hL0 := countQ_filterMap_zero_of_not_mem _ hfL
        (buildAnswersMap oldPRR.answers) qid hmem
      have hN1 := countQ_filterMap_le_one _ hfN
        (buildAnswersMap newPRR.answers)
        (keysNodup_buildAnswersMap newPRR.answers) qid
      omega
  · intro hmem
    rw [List.mem_map] at hmem
    obtain ⟨d, hd, hdq⟩ := hmem
    rw [mem_gen_answerChanges_iff] at hd
    exact ⟨d.oldAnswer, d.newAnswer, hdq ▸ hd.1, hdq ▸ hd.2.1, hd.2.2.1⟩

/-- C3 witness: at the concrete submissions, `q1` appears in AnswerChanges,
so it is answered in both with differing responses. -/
theorem comparison_partition_witness :
    ∃ o n, lookupMap (buildAnswersMap exSubA.answers) "q1" = some o ∧
      lookupMap (buildAnswersMap exSubB.answers) "q1" = some n ∧ o ≠ n :=
  (comparison_partition exSubA exSubB exCatalog "svc" "q1").2 (by decide)

/-- C4: the key set of the section-comparison map is duplicate-free and
equals exactly the union of the two submissions' section-score key sets,
each unioned id being mapped to the pairing of the old side's tally and the
new side's tally (zero-valued when absent). -/
theorem comparison_section_union (oldPRR newPRR : PRRSubmission)
    (allQuestions : Catalog) (serviceID : String) :
    keysNodup ((generateComparisonReport oldPRR newPRR allQuestions
        serviceID).sectionComparison) ∧
    (∀ s : String,
      s ∈ keysOf ((generateComparisonReport oldPRR newPRR allQuestions
          serviceID).sectionComparison) ↔
        s ∈ keysOf oldPRR.sectionScores ∨ s ∈ keysOf newPRR.sectionScores) ∧
    (∀ s : String,
      s ∈ keysOf oldPRR.sectionScores ∨ s ∈ keysOf newPRR.sectionScores →
      lookupMap ((generateComparisonReport oldPRR newPRR allQuestions
          serviceID).sectionComparison) s =
        some { oldScores := (lookupMap oldPRR.sectionScores s).getD zeroScore
               newScores :=
                 (lookupMap newPRR.sectionScores s).getD zeroScore }) := by
  refine ⟨?_, ?_, ?_⟩
  · unfold generateComparisonReport
    exact fill_sectionComparison_keysNodup _ _ _ _ rfl
  · intro s
    constructor
    · intro hs
      by_contra hne
      have h := gen_sectionComparison_lookup oldPRR newPRR allQuestions
        serviceID s
      rw [if_neg hne, lookupMap_eq_none_iff] at h
      exact h hs
    · intro hs
      have h := gen_sectionComparison_lookup oldPRR newPRR allQuestions
        serviceID s
      rw [if_pos hs] at h
      by_contra hmem
      rw [← lookupMap_eq_none_iff] at hmem
      rw [hmem] at h
      cases h
  · intro s hs
    rw [gen_sectionComparison_lookup, if_pos hs]

/-- C4 witness: the section `s2`, present only in `exSubB`, gets exactly the
zero-old / tallied-new pairing. -/
theorem comparison_section_union_witness :
    lookupMap ((generateComparisonReport exSubA exSubB exCatalog
        "svc").sectionComparison) "s2" =
      some { oldScores := (lookupMap exSubA.sectionScores "s2").getD zeroScore
             newScores :=
               (lookupMap exSubB.sectionScores "s2").getD zeroScore } :=
  (comparison_section_union exSubA exSubB exCatalog "svc").2.2 "s2"
    (Or.inr (by decide))

/-- C8: comparing (A, B) and (B, A) produces AnswerChanges equal as sets up
to swapping each entry's old and new answer, and the NewlyAnsweredQuestions
of one equal, as a set of question ids, the NoLongerAnsweredQuestions of
the other. -/
theorem comparison_swap_symmetric (A B : PRRSubmission)
    (allQuestions : Catalog) (serviceID : String) :
    (∀ d : AnswerChangeDetail,
      d ∈ sliceList ((generateComparisonReport A B allQuestions
          serviceID).answerChanges) ↔
        swapDetail d ∈ sliceList ((generateComparisonReport B A allQuestions
          serviceID).answerChanges)) ∧
    (∀ q : String,
      (q ∈ (sliceList ((generateComparisonReport A B allQuestions
            serviceID).newlyAnsweredQuestions)).map
            AnswerChangeDetail.questionID ↔
        q ∈ (sliceList ((generateComparisonReport B A allQuestions
            serviceID).noLongerAnsweredQuestions)).map
            AnswerChangeDetail.questionID) ∧
      (q ∈ (sliceList ((generateComparisonReport A B allQuestions
            serviceID).noLongerAnsweredQuestions)).map
            AnswerChangeDetail.questionID ↔
        q ∈ (sliceList ((generateComparisonReport B A allQuestions
            serviceID).newlyAnsweredQuestions)).map
            AnswerChangeDetail.questionID)) := by
  constructor
  · intro d
    rw [mem_gen_answerChanges_iff, mem_gen_answerChanges_iff]
    have e1 : (swapDetail d).questionID = d.questionID := rfl
    have e2 : (swapDetail d).oldAnswer = d.newAnswer := rfl
    have e3 : (swapDetail d).newAnswer = d.oldAnswer := rfl
    have e4 : (swapDetail d).questionText = d.questionText := rfl
    rw [e1, e2, e3, e4]
    constructor
    · rintro ⟨h1, h2, h3, h4⟩
      exact ⟨h2, h1, Ne.symm h3, h4⟩
    · rintro ⟨h1, h2, h3, h4⟩
      exact ⟨h2, h1, Ne.symm h3, h4⟩
  · intro q
    constructor
    · rw [mem_map_gen_newly_iff, mem_map_gen_noLonger_iff]
    · rw [mem_map_gen_noLonger_iff, mem_map_gen_newly_iff]

/-- C8 witness: the concrete changed entry for `q1` in compare(A, B)
appears old/new-swapped in compare(B, A). -/
theorem comparison_swap_symmetric_witness :
    swapDetail { questionID := "q1", questionText := "Is it monitored?",
                 oldAnswer := "Yes", newAnswer := "No" } ∈
      sliceList ((generateComparisonReport exSubB exSubA exCatalog
        "svc").answerChanges) :=
  ((comparison_swap_symmetric exSubA exSubB exCatalog "svc").1
    { questionID := "q1", questionText := "Is it monitored?",
      oldAnswer := "Yes", newAnswer := "No" }).mp (by decide)

/-- C10: for a section id present on only one side, the comparison entry
carries on the absent side the zero-value SectionScore — section id the
empty string (not the section's own id) and all counts zero — in
`generateComparisonReport` as well as on the handler path. -/
theorem comparison_absent_side_zero (oldPRR newPRR : PRRSubmission)
    (allQuestions : Catalog) (serviceID : String) (s : String) :
    (lookupMap oldPRR.sectionScores s = none →
      s ∈ keysOf newPRR.sectionScores →
      lookupMap ((generateComparisonReport oldPRR newPRR allQuestions
          serviceID).sectionComparison) s =
        some { oldScores := { sectionID := "", yesCount := 0, noCount := 0,
                              naCount := 0 }
               newScores :=
                 (lookupMap newPRR.sectionScores s).getD zeroScore }) ∧
    (lookupMap newPRR.sectionScores s = none →
      s ∈ keysOf oldPRR.sectionScores →
      lookupMap ((generateComparisonReport oldPRR newPRR allQuestions
          serviceID).sectionComparison) s =
        some { oldScores := (lookupMap oldPRR.sectionScores s).getD zeroScore
               newScores := { sectionID := "", yesCount := 0, noCount := 0,
                              naCount := 0 } }) ∧
    (∀ sub1 sub2 : PRRSubmission, sub1.timestamp < sub2.timestamp →
      lookupMap sub1.sectionScores s = none →
      s ∈ keysOf sub2.sectionScores →
      lookupMap ((comparePRRHandlerReport sub1 sub2 allQuestions
          serviceID).sectionComparison) s =
        some { oldScores := { sectionID := "", yesCount := 0, noCount := 0,
                              naCount := 0 }
               newScores :=
                 (lookupMap sub2.sectionScores s).getD zeroScore }) := by
  refine ⟨?_, ?_, ?_⟩
  · intro h1 h2
    rw [gen_sectionComparison_lookup, if_pos (Or.inr h2), h1]
    rfl
  · intro h1 h2
    rw [gen_sectionComparison_lookup, if_pos (Or.inl h2), h1]
    rfl
  · intro sub1 sub2 ht h1 h2
    unfold comparePRRHandlerReport
    rw [if_pos ht]
    rw [fill_sectionComparison_lookup _ _ _ _ rfl, if_pos (Or.inr h2), h1]
    rfl

/-- C10 witness: `s2` is absent from `exSubA` and present in `exSubB`; the
comparison entry for `s2` pairs the zero-value SectionScore (empty section
id) with `exSubB`'s tally. -/
theorem comparison_absent_side_zero_witness :
    lookupMap ((generateComparisonReport exSubA exSubB exCatalog
        "svc").sectionComparison) "s2" =
      some { oldScores := { sectionID := "", yesCount := 0, noCount := 0,
                            naCount := 0 }
             newScores :=
               (lookupMap exSubB.sectionScores "s2").getD zeroScore } :=
  (comparison_absent_side_zero exSubA exSubB exCatalog "svc" "s2").1
    (by decide) (by decide)

end PRR
